import Mathlib

/-
Verification of the AD fleet-management console
(src/Windows/python_script/AD_Management/ad_manager.py).

The development shallowly embeds the dispatch/execution core of the script:

* `execute_remote_command` — the per-target remote execution unit
  (ad_manager.py lines 391-456);
* the dispatch round of `run_command_on_ou` / `run_command_by_pattern`
  (lines 766-787 and 851-877): one thread per computer, each thread puts
  exactly one result dict on a shared queue, the queue is drained after all
  threads finished — modelled as the list of per-target outcomes together
  with an arbitrary permutation for the nondeterministic drain order;
* `convert_pattern_to_ldap` (lines 458-484);
* `find_computers_by_pattern` (lines 486-567) and `get_computers_in_ou`
  (lines 360-389), over an abstract LDAP directory environment.

Python strings are modelled as Lean `String` (logically a `List Char`);
the Python `str` operations used by the script (`split('-')`, `'-'.join`,
`in`, `replace('**','')`, `endswith('$')`, comparison) are re-implemented
below on `List Char` so that they are executable and provable.

External effects (the winrm session, the ldap3 search) are modelled as
explicit environments: a function from the inputs the script hands to the
collaborator to the collaborator's response, where a raised exception is a
`raises` constructor carrying the exception text (`str(e)`).
-/

/-! ### Python `str` primitives, on `List Char` -/

/-- Python `s.split(sep)` for a one-character separator: always returns a
nonempty list of (possibly empty) segments. -/
def splitChar (sep : Char) : List Char → List (List Char)
  | [] => [[]]
  | c :: cs =>
    match splitChar sep cs with
    | [] => [[]]
    | h :: t => if c = sep then [] :: h :: t else (c :: h) :: t

/-- Python `sep.join(segments)` for a one-character separator. -/
def joinChar (sep : Char) : List (List Char) → List Char
  | [] => []
  | [s] => s
  | s :: rest => s ++ sep :: joinChar sep rest

/-- Python `c in s` for a single character `c`. -/
def charIn (c : Char) : List Char → Bool
  | [] => false
  | d :: ds => if d = c then true else charIn c ds

/-- Python `'**' in s`: two consecutive `'*'` occur somewhere in `s`. -/
def containsStarStar : List Char → Bool
  | [] => false
  | [_] => false
  | a :: b :: cs => (a = '*' && b = '*') || containsStarStar (b :: cs)

/-- Python `s.replace('**', '')`: remove the non-overlapping occurrences of
`"**"`, scanning left to right. -/
def removeStarStar : List Char → List Char
  | [] => []
  | [c] => [c]
  | a :: b :: cs =>
    if a = '*' && b = '*' then removeStarStar cs
    else a :: removeStarStar (b :: cs)

/-- Python `s.endswith('$')`. -/
def endsWithDollar (s : String) : Bool :=
  match s.data.getLast? with
  | some c => c = '$'
  | none => false

/-- Python `str` comparison (lexicographic by code point), as used by
`computers.sort(key=lambda x: x['name'])`: `a <= b`. -/
def charListLe : List Char → List Char → Bool
  | [], _ => true
  | _ :: _, [] => false
  | a :: as, b :: bs =>
    if a.toNat < b.toNat then true
    else if b.toNat < a.toNat then false
    else charListLe as bs

/-- `a <= b` on Python strings. -/
def pyStrLe (a b : String) : Bool :=
  charListLe a.data b.data

/-! ### The command encoding handed to the WinRM session

`encoded_cmd = b64encode(command.encode('utf-16le')).decode('ascii')`
`powershell_cmd = f"powershell -encodedcommand {encoded_cmd}"`
(ad_manager.py lines 417-418). -/

/-- UTF-16 code units of one character (surrogate pair above U+FFFF). -/
def utf16Units (c : Char) : List Nat :=
  let v := c.toNat
  if v < 65536 then [v]
  else [55296 + (v - 65536) / 1024, 56320 + (v - 65536) % 1024]

/-- Concatenate byte lists. -/
def concatLists : List (List Nat) → List Nat
  | [] => []
  | l :: ls => l ++ concatLists ls

/-- Python `command.encode('utf-16le')`: each UTF-16 unit little-endian,
no byte-order mark. -/
def utf16leBytes (s : String) : List Nat :=
  concatLists ((concatLists (s.data.map utf16Units)).map (fun u => [u % 256, u / 256 % 256]))

/-- The standard base64 alphabet. -/
def base64Alphabet : List Char :=
  "ABCDEFGHIJKLMNOPQRSTUVWXYZabcdefghijklmnopqrstuvwxyz0123456789+/".data

/-- The base64 digit for a 6-bit value. -/
def b64char (n : Nat) : Char :=
  base64Alphabet.getD n 'A'

/-- Python `b64encode`, with `=` padding. -/
def b64chunks : List Nat → List Char
  | b1 :: b2 :: b3 :: rest =>
    b64char (b1 / 4) :: b64char ((b1 % 4) * 16 + b2 / 16) ::
      b64char ((b2 % 16) * 4 + b3 / 64) :: b64char (b3 % 64) :: b64chunks rest
  | [b1, b2] => [b64char (b1 / 4), b64char ((b1 % 4) * 16 + b2 / 16), b64char ((b2 % 16) * 4), '=']
  | [b1] => [b64char (b1 / 4), b64char ((b1 % 4) * 16), '=', '=']
  | [] => []

/-- `b64encode(command.encode('utf-16le')).decode('ascii')`. -/
def encoded_cmd (command : String) : String :=
  ⟨b64chunks (utf16leBytes command)⟩

/-- `f"powershell -encodedcommand {encoded_cmd}"`. -/
def powershell_cmd (command : String) : String :=
  "powershell -encodedcommand " ++ encoded_cmd command

/-! ### Targets, outcomes, and the remote execution unit -/

/-- The computer dict produced by the resolvers:
`{'name': ..., 'hostname': ...}`; `hostname` is `None` when the directory
record has no `dNSHostName` attribute. -/
structure Computer where
  name : String
  hostname : Option String
deriving DecidableEq

/-- The result dict `execute_remote_command` puts on `results_queue`:
`{'computer': ..., 'status': 'Success' | 'Failed', 'output': ...}`. -/
structure Outcome where
  computer : String
  status : String
  output : String
deriving DecidableEq

/-- Behaviour of one WinRM interaction (session creation followed by
`session.run_cmd`): either some step raises an exception with text `msg`
(connection refused, authentication failure, timeout, transport error), or
`run_cmd` returns `{status_code, std_out, std_err}`. Output streams are
carried as the already-decoded strings (`decode('utf-8', errors='replace')`
never raises). -/
inductive RunResult where
  | raises (msg : String)
  | returns (status_code : Int) (std_out std_err : String)
deriving DecidableEq

/-- The remote side as a whole: what the WinRM interaction does for a given
computer and submitted command string. -/
def WinRMEnv : Type :=
  Computer → String → RunResult

/-- Python `not computer['hostname']`: `None` and `''` are falsy. -/
def falsyHostname : Option String → Bool
  | none => true
  | some h => h = ""

/-- `ADManager.execute_remote_command` (ad_manager.py lines 391-456), as the
outcome it puts on the results queue.  The hostname check comes first; the
inner `try` converts any exception from session creation or `run_cmd` into a
Failed outcome carrying `str(e)`; an exit status of `0` gives Success with
captured stdout, any other status gives Failed with captured stderr. -/
def execute_remote_command (env : WinRMEnv) (computer : Computer) (command : String) : Outcome :=
  if falsyHostname computer.hostname then
    ⟨computer.name, "Failed", "No hostname available"⟩
  else
    match env computer (powershell_cmd command) with
    | RunResult.raises msg => ⟨computer.name, "Failed", msg⟩
    | RunResult.returns status_code std_out std_err =>
      if status_code = 0 then ⟨computer.name, "Success", std_out⟩
      else ⟨computer.name, "Failed", std_err⟩

/-- One dispatch round (`run_command_on_ou` lines 766-787,
`run_command_by_pattern` lines 851-877): one thread per computer, each
running `execute_remote_command`, each putting exactly one result on the
queue.  The queue content after all threads finished is some permutation of
this list; theorems below quantify over that permutation. -/
def round_results (env : WinRMEnv) (command : String) (computers : List Computer) : List Outcome :=
  computers.map (fun c => execute_remote_command env c command)

/-! ### The LDAP side -/

/-- A directory entry as the script reads it: `entry.cn.value`,
`entry.dNSHostName.value` when the attribute is present, and the entry DN. -/
structure LdapEntry where
  cn : Option String
  dNSHostName : Option String
  entry_dn : String
deriving DecidableEq

/-- Behaviour of one `ldap_conn.search(base, filter, ...)` call: either it
raises (network/auth failure to the directory) or it returns the matching
entries. -/
inductive SearchResult where
  | raises (msg : String)
  | entries (es : List LdapEntry)
deriving DecidableEq

/-- The directory service as the script sees it: whether
`ensure_connected()` succeeds, the base DN, and the search behaviour as a
function of `(base, filter)`. -/
structure LdapEnv where
  connected : Bool
  base_dn : String
  search : String → String → SearchResult

/-- The filter string built by `find_computers_by_pattern`:
`f"(&(objectClass=computer)(|(name={pattern})(sAMAccountName={pattern})))"`. -/
def computer_search_filter (pattern : String) : String :=
  "(&(objectClass=computer)(|(name=" ++ pattern ++ ")(sAMAccountName=" ++ pattern ++ ")))"

/-- The projection `find_computers_by_pattern` applies to each entry:
`cn` (default `'N/A'`) as name, `dNSHostName` (default `None`) as hostname. -/
def entryToComputer (e : LdapEntry) : Computer :=
  ⟨match e.cn with
    | some v => v
    | none => "N/A",
   e.dNSHostName⟩

/-- The name ordering used by `computers.sort(key=lambda x: x['name'])`. -/
def nameLe (a b : Computer) : Prop :=
  pyStrLe a.name b.name = true

instance : DecidableRel nameLe :=
  fun a b => instDecidableEqBool (pyStrLe a.name b.name) true

/-- `computers.sort(key=lambda x: x['name'])`: Python's sort is a stable
sort by the key, modelled by (stable) insertion sort on `nameLe`. -/
def sortByName (l : List Computer) : List Computer :=
  List.insertionSort nameLe l

/-- `ADManager.find_computers_by_pattern` (ad_manager.py lines 486-567).
A failed `ensure_connected` returns `[]`; a raising search is caught by the
surrounding `try` and yields `[]`; if the literal pattern matched nothing
and does not already end in `'$'`, the search is retried once with `'$'`
appended (its results appended to the — empty — list); the list is sorted
by name and returned. -/
def find_computers_by_pattern (env : LdapEnv) (pattern : String) : List Computer :=
  if env.connected = false then []
  else
    match env.search env.base_dn (computer_search_filter pattern) with
    | SearchResult.raises _ => []
    | SearchResult.entries es =>
      if (es.map entryToComputer).isEmpty then
        if endsWithDollar pattern then sortByName (es.map entryToComputer)
        else
          match env.search env.base_dn (computer_search_filter (pattern ++ "$")) with
          | SearchResult.raises _ => []
          | SearchResult.entries es2 =>
            sortByName (es.map entryToComputer ++ es2.map entryToComputer)
      else sortByName (es.map entryToComputer)

/-- The computer dict produced by `get_computers_in_ou`:
`{'name': ..., 'hostname': ..., 'dn': ...}`. -/
structure OUComputer where
  name : String
  hostname : Option String
  dn : String
deriving DecidableEq

/-- `ADManager.get_computers_in_ou` (ad_manager.py lines 360-389): search
the OU subtree for computers; any exception is caught and `[]` returned. -/
def get_computers_in_ou (env : LdapEnv) (ou_dn : String) : List OUComputer :=
  if env.connected = false then []
  else
    match env.search ou_dn "(objectClass=computer)" with
    | SearchResult.raises _ => []
    | SearchResult.entries es =>
      es.map (fun e =>
        ⟨match e.cn with
          | some v => v
          | none => "Unknown",
         e.dNSHostName, e.entry_dn⟩)

/-- `ADManager.verify_hostname` (ad_manager.py lines 569-594): try the
literal hostname, then the hostname with `'$'` appended. -/
def verify_hostname (env : LdapEnv) (hostname : String) : Bool :=
  if env.connected = false then false
  else if (find_computers_by_pattern env hostname).isEmpty then
    !(find_computers_by_pattern env (hostname ++ "$")).isEmpty
  else true

/-- `ADManager.convert_pattern_to_ldap` (ad_manager.py lines 458-484):
split on `'-'`; with at least two parts, a last part containing `'**'` is
replaced by `replace('**','')` plus a single `'*'` after the rejoined base
parts; a last part containing `'*'` is rejoined unchanged; otherwise the
pattern is returned as is. -/
def convert_pattern_to_ldap (pattern : String) : String :=
  if (splitChar '-' pattern.data).length > 1 then
    if containsStarStar ((splitChar '-' pattern.data).getLastD []) then
      ⟨joinChar '-' (splitChar '-' pattern.data).dropLast ++ '-' ::
        (removeStarStar ((splitChar '-' pattern.data).getLastD []) ++ ['*'])⟩
    else if charIn '*' ((splitChar '-' pattern.data).getLastD []) then
      ⟨joinChar '-' (splitChar '-' pattern.data).dropLast ++ '-' ::
        (splitChar '-' pattern.data).getLastD []⟩
    else pattern
  else pattern

/-! ### Concrete environments used by witnesses and counterexamples -/

/-- A directory whose search always fails (network error to the directory). -/
def envLookupFails : LdapEnv :=
  ⟨true, "DC=EX,DC=LOCAL", fun _ _ => SearchResult.raises "LDAP search failed: network error"⟩

/-- A connected directory in which every search matches nothing. -/
def envNoMatch : LdapEnv :=
  ⟨true, "DC=EX,DC=LOCAL", fun _ _ => SearchResult.entries []⟩

/-- A directory holding two distinct computer entries that share the CN
`"PC1"` (same name in two containers), both matching the literal pattern
`"PC1"`. -/
def envDupNames : LdapEnv :=
  ⟨true, "DC=EX,DC=LOCAL", fun _ filt =>
    if filt = computer_search_filter "PC1" then
      SearchResult.entries
        [⟨some "PC1", some "pc1.a.ex.local", "CN=PC1,OU=A,DC=EX,DC=LOCAL"⟩,
         ⟨some "PC1", some "pc1.b.ex.local", "CN=PC1,OU=B,DC=EX,DC=LOCAL"⟩]
    else SearchResult.entries []⟩

/-- A directory in which nothing matches `"HOST1"` but one record matches
`"HOST1$"`. -/
def envDollarOnly : LdapEnv :=
  ⟨true, "DC=EX,DC=LOCAL", fun _ filt =>
    if filt = computer_search_filter "HOST1$" then
      SearchResult.entries [⟨some "HOST1", some "host1.ex.local", "CN=HOST1,DC=EX,DC=LOCAL"⟩]
    else SearchResult.entries []⟩

/-- A remote side for witnesses: `PC-B` times out, `PC-C` exits nonzero,
every other reachable computer succeeds with empty stdout. -/
def envRemoteMixed : WinRMEnv :=
  fun c _ =>
    if c.name = "PC-B" then RunResult.raises "the operation timed out"
    else if c.name = "PC-C" then RunResult.returns 1 "" "Access is denied."
    else RunResult.returns 0 "" ""

/-- A remote side on which every command succeeds. -/
def envRemoteAllOk : WinRMEnv :=
  fun _ _ => RunResult.returns 0 "ok" ""

/-! ### Theorems -/

/-- Every outcome `execute_remote_command` produces is tagged with the
computer's `name`, in every branch. -/
theorem execute_remote_command_computer (env : WinRMEnv) (c : Computer) (command : String) :
    (execute_remote_command env c command).computer = c.name := by
  unfold execute_remote_command
  split
  · rfl
  · split
    · rfl
    · split <;> rfl

/-- The outcome list of a round, projected to computer names, is exactly
the target list projected to names. -/
theorem round_results_map_computer (env : WinRMEnv) (command : String) :
    ∀ computers : List Computer,
      (round_results env command computers).map Outcome.computer =
        computers.map Computer.name := by
  intro cs
  induction cs with
  | nil => rfl
  | cons c cs ih =>
    show (execute_remote_command env c command).computer ::
        (round_results env command cs).map Outcome.computer =
      c.name :: cs.map Computer.name
    rw [execute_remote_command_computer, ih]

/-- C1: for every dispatch round over a resolved list of targets, however
the collected queue content is ordered, there is exactly one outcome per
target: the lengths agree, the outcome names are a permutation of the
target names, and — when the target names are distinct — the outcome names
have no duplicates and are exactly the set of target names, for every
behaviour of the remote side (any number of failures). -/
theorem round_results_one_outcome_per_target (env : WinRMEnv) (command : String)
    (computers : List Computer) (outs : List Outcome)
    (h : outs.Perm (round_results env command computers)) :
    outs.length = computers.length ∧
    (outs.map Outcome.computer).Perm (computers.map Computer.name) ∧
    ((computers.map Computer.name).Nodup →
      (outs.map Outcome.computer).Nodup ∧
      ∀ n, n ∈ outs.map Outcome.computer ↔ n ∈ computers.map Computer.name) := by
  have hperm : (outs.map Outcome.computer).Perm (computers.map Computer.name) := by
    rw [← round_results_map_computer env command computers]
    exact h.map Outcome.computer
  refine ⟨?_, hperm, fun hnd => ⟨hperm.nodup_iff.2 hnd, fun n => hperm.mem_iff⟩⟩
  have hlen := h.length_eq
  rwa [round_results, List.length_map] at hlen

/-- Witness for C1: a two-target round in which one target times out; the
queue is drained in reverse completion order. -/
theorem round_results_one_outcome_per_target_witness :
    (([Outcome.mk "PC-B" "Failed" "the operation timed out",
        Outcome.mk "PC-A" "Success" ""]).map Outcome.computer).Perm
      (([Computer.mk "PC-A" (some "a.ex.local"),
         Computer.mk "PC-B" (some "b.ex.local")]).map Computer.name) :=
  (round_results_one_outcome_per_target envRemoteMixed "hostname"
    [Computer.mk "PC-A" (some "a.ex.local"), Computer.mk "PC-B" (some "b.ex.local")]
    [Outcome.mk "PC-B" "Failed" "the operation timed out",
     Outcome.mk "PC-A" "Success" ""]
    (by decide)).2.1

/-- C2: `execute_remote_command` never lets a failure escape as an
exception: for every behaviour of the remote side it yields exactly one
outcome, tagged with the target's name and with status `Success` or
`Failed`; a missing address, a raised exception (connection refused,
authentication failure, timeout, transport error) and a nonzero remote
exit are each converted to a `Failed` outcome whose output is the
human-readable cause. -/
theorem execute_remote_command_never_raises (env : WinRMEnv) (c : Computer) (command : String) :
    ((execute_remote_command env c command).status = "Success" ∨
      (execute_remote_command env c command).status = "Failed") ∧
    (execute_remote_command env c command).computer = c.name ∧
    (falsyHostname c.hostname = true →
      execute_remote_command env c command =
        Outcome.mk c.name "Failed" "No hostname available") ∧
    (∀ msg, falsyHostname c.hostname = false →
      env c (powershell_cmd command) = RunResult.raises msg →
      execute_remote_command env c command = Outcome.mk c.name "Failed" msg) ∧
    (∀ status_code std_out std_err, falsyHostname c.hostname = false →
      env c (powershell_cmd command) = RunResult.returns status_code std_out std_err →
      status_code ≠ 0 →
      execute_remote_command env c command = Outcome.mk c.name "Failed" std_err) := by
  refine ⟨?_, execute_remote_command_computer env c command, ?_, ?_, ?_⟩
  · unfold execute_remote_command
    split
    · right; rfl
    · split
      · right; rfl
      · split
        · left; rfl
        · right; rfl
  · intro hf
    simp [execute_remote_command, hf]
  · intro msg hf hr
    simp [execute_remote_command, hf, hr]
  · intro status_code std_out std_err hf hr hnz
    simp [execute_remote_command, hf, hr, hnz]

/-- Witness for C2: the no-address, exception, and nonzero-exit failure
modes each yield the documented Failed outcome. -/
theorem execute_remote_command_never_raises_witness :
    execute_remote_command envRemoteMixed (Computer.mk "GHOST" none) "hostname" =
      Outcome.mk "GHOST" "Failed" "No hostname available" ∧
    execute_remote_command envRemoteMixed (Computer.mk "PC-B" (some "b.ex.local")) "hostname" =
      Outcome.mk "PC-B" "Failed" "the operation timed out" ∧
    execute_remote_command envRemoteMixed (Computer.mk "PC-C" (some "c.ex.local")) "hostname" =
      Outcome.mk "PC-C" "Failed" "Access is denied." :=
  ⟨(execute_remote_command_never_raises envRemoteMixed
      (Computer.mk "GHOST" none) "hostname").2.2.1 (by decide),
   (execute_remote_command_never_raises envRemoteMixed
      (Computer.mk "PC-B" (some "b.ex.local")) "hostname").2.2.2.1
      "the operation timed out" (by decide) (by decide),
   (execute_remote_command_never_raises envRemoteMixed
      (Computer.mk "PC-C" (some "c.ex.local")) "hostname").2.2.2.2
      1 "" "Access is denied." (by decide) (by decide) (by decide)⟩

/-- C3: a target whose hostname is `None` yields the Failed outcome
`"No hostname available"`, and the result does not depend on the remote
side at all — no session creation is attempted. -/
theorem execute_remote_command_no_hostname (env env' : WinRMEnv) (c : Computer)
    (command : String) (h : c.hostname = none) :
    execute_remote_command env c command =
      Outcome.mk c.name "Failed" "No hostname available" ∧
    execute_remote_command env c command = execute_remote_command env' c command := by
  have hf : falsyHostname c.hostname = true := by rw [h]; rfl
  constructor <;> simp [execute_remote_command, hf]

/-- Witness for C3: an address-less target under two different remote
sides. -/
theorem execute_remote_command_no_hostname_witness :
    execute_remote_command envRemoteMixed (Computer.mk "GHOST2" none) "ipconfig" =
      Outcome.mk "GHOST2" "Failed" "No hostname available" ∧
    execute_remote_command envRemoteMixed (Computer.mk "GHOST2" none) "ipconfig" =
      execute_remote_command envRemoteAllOk (Computer.mk "GHOST2" none) "ipconfig" :=
  execute_remote_command_no_hostname envRemoteMixed envRemoteAllOk
    (Computer.mk "GHOST2" none) "ipconfig" rfl

/-- C4: when the remote execution returns an exit status, status `0` yields
a Success outcome whose output is the captured stdout (also when stdout is
empty), and any nonzero status yields a Failed outcome whose output is the
captured stderr. -/
theorem execute_remote_command_exit_status (env : WinRMEnv) (c : Computer) (command : String)
    (h : String) (status_code : Int) (std_out std_err : String)
    (hh : c.hostname = some h) (hne : h ≠ "")
    (hr : env c (powershell_cmd command) = RunResult.returns status_code std_out std_err) :
    (status_code = 0 →
      execute_remote_command env c command = Outcome.mk c.name "Success" std_out) ∧
    (status_code ≠ 0 →
      execute_remote_command env c command = Outcome.mk c.name "Failed" std_err) := by
  have hf : falsyHostname c.hostname = false := by
    rw [hh]
    simpa [falsyHostname] using hne
  constructor
  · intro hz
    simp [execute_remote_command, hf, hr, hz]
  · intro hnz
    simp [execute_remote_command, hf, hr, hnz]

/-- Witness for C4: a command with empty stdout and exit status `0` yields
`Success` with output `""`; a nonzero exit yields `Failed` with the
captured stderr. -/
theorem execute_remote_command_exit_status_witness :
    execute_remote_command envRemoteMixed (Computer.mk "PC-A" (some "a.ex.local")) "hostname" =
      Outcome.mk "PC-A" "Success" "" ∧
    execute_remote_command envRemoteMixed (Computer.mk "PC-C" (some "c.ex.local")) "hostname" =
      Outcome.mk "PC-C" "Failed" "Access is denied." :=
  ⟨(execute_remote_command_exit_status envRemoteMixed
      (Computer.mk "PC-A" (some "a.ex.local")) "hostname" "a.ex.local" 0 "" ""
      rfl (by decide) (by decide)).1 rfl,
   (execute_remote_command_exit_status envRemoteMixed
      (Computer.mk "PC-C" (some "c.ex.local")) "hostname" "c.ex.local" 1 "" "Access is denied."
      rfl (by decide) (by decide)).2 (by decide)⟩

/-- C5: a unit whose remote call times out (the timeout surfaces as a
raised exception with the timeout description) contributes a Failed
outcome; the round still holds one outcome for every target, every other
unit's outcome is exactly its own independent execution, and a unit's
outcome depends only on the remote side's behaviour at its own target —
there is no cross-unit cancellation. -/
theorem round_results_timeout_isolation (env : WinRMEnv) (command : String)
    (computers : List Computer) (i : Nat) (hi : i < computers.length) (msg : String)
    (hf : falsyHostname (computers.get ⟨i, hi⟩).hostname = false)
    (ht : env (computers.get ⟨i, hi⟩) (powershell_cmd command) = RunResult.raises msg) :
    (round_results env command computers).length = computers.length ∧
    (round_results env command computers).get? i =
      some (Outcome.mk (computers.get ⟨i, hi⟩).name "Failed" msg) ∧
    (∀ j, j ≠ i → (round_results env command computers).get? j =
      (computers.get? j).map (fun c => execute_remote_command env c command)) ∧
    (∀ (env' : WinRMEnv) (c : Computer), env' c = env c →
      execute_remote_command env' c command = execute_remote_command env c command) := by
  refine ⟨by simp [round_results], ?_, ?_, ?_⟩
  · rw [round_results, List.get?_eq_getElem?, List.getElem?_map,
      List.getElem?_eq_getElem hi]
    show some (execute_remote_command env (computers.get ⟨i, hi⟩) command) = _
    simp only [List.get_eq_getElem] at hf ht
    simp [execute_remote_command, hf, ht]
  · intro j _
    rw [round_results, List.get?_eq_getElem?, List.getElem?_map, List.get?_eq_getElem?]
  · intro env' c hc
    simp [execute_remote_command, hc]

/-- Witness for C5: in a three-target round whose middle target times out,
the middle outcome is the timeout Failure. -/
theorem round_results_timeout_isolation_witness :
    (round_results envRemoteMixed "hostname"
      [Computer.mk "PC-A" (some "a.ex.local"), Computer.mk "PC-B" (some "b.ex.local"),
       Computer.mk "PC-C" (some "c.ex.local")]).get? 1 =
      some (Outcome.mk "PC-B" "Failed" "the operation timed out") :=
  (round_results_timeout_isolation envRemoteMixed "hostname"
    [Computer.mk "PC-A" (some "a.ex.local"), Computer.mk "PC-B" (some "b.ex.local"),
     Computer.mk "PC-C" (some "c.ex.local")] 1 (by decide) "the operation timed out"
    (by decide) (by decide)).2.1

/-! ### Ordering lemmas for the name sort -/

/-- Python string `<=` is total. -/
theorem charListLe_total : ∀ a b : List Char, charListLe a b = true ∨ charListLe b a = true := by
  intro a
  induction a with
  | nil => intro b; left; rfl
  | cons x xs ih =>
    intro b
    cases b with
    | nil => right; rfl
    | cons y ys =>
      rcases Nat.lt_trichotomy x.toNat y.toNat with h | h | h
      · left; simp [charListLe, h]
      · have hx : ¬ x.toNat < y.toNat := by omega
        have hy : ¬ y.toNat < x.toNat := by omega
        rcases ih ys with h' | h'
        · left; simp [charListLe, hx, hy, h']
        · right; simp [charListLe, hx, hy, h']
      · right; simp [charListLe, h]

/-- Python string `<=` is transitive. -/
theorem charListLe_trans :
    ∀ a b c : List Char, charListLe a b = true → charListLe b c = true →
      charListLe a c = true := by
  intro a
  induction a with
  | nil => intro b c _ _; rfl
  | cons x xs ih =>
    intro b c h1 h2
    cases b with
    | nil => simp [charListLe] at h1
    | cons y ys =>
      cases c with
      | nil => simp [charListLe] at h2
      | cons z zs =>
        have H1 : x.toNat < y.toNat ∨ (x.toNat = y.toNat ∧ charListLe xs ys = true) := by
          by_cases hxy : x.toNat < y.toNat
          · exact Or.inl hxy
          · by_cases hyx : y.toNat < x.toNat
            · simp [charListLe, hxy, hyx] at h1
            · exact Or.inr ⟨by omega, by simpa [charListLe, hxy, hyx] using h1⟩
        have H2 : y.toNat < z.toNat ∨ (y.toNat = z.toNat ∧ charListLe ys zs = true) := by
          by_cases hyz : y.toNat < z.toNat
          · exact Or.inl hyz
          · by_cases hzy : z.toNat < y.toNat
            · simp [charListLe, hyz, hzy] at h2
            · exact Or.inr ⟨by omega, by simpa [charListLe, hyz, hzy] using h2⟩
        rcases H1 with h1' | ⟨he1, hl1⟩
        · rcases H2 with h2' | ⟨he2, _⟩
          · simp [charListLe, show x.toNat < z.toNat by omega]
          · simp [charListLe, show x.toNat < z.toNat by omega]
        · rcases H2 with h2' | ⟨he2, hl2⟩
          · simp [charListLe, show x.toNat < z.toNat by omega]
          · have hnx : ¬ x.toNat < z.toNat := by omega
            have hnz : ¬ z.toNat < x.toNat := by omega
            simp [charListLe, hnx, hnz]
            exact ih ys zs hl1 hl2

instance : IsTotal Computer nameLe :=
  ⟨fun a b => charListLe_total a.name.data b.name.data⟩

instance : IsTrans Computer nameLe :=
  ⟨fun a b c => charListLe_trans a.name.data b.name.data c.name.data⟩

/-- The name sort really sorts. -/
theorem sortByName_sorted (l : List Computer) : List.Sorted nameLe (sortByName l) :=
  List.sorted_insertionSort nameLe l

/-- The name sort keeps exactly the elements it was given. -/
theorem sortByName_perm (l : List Computer) : (sortByName l).Perm l :=
  List.perm_insertionSort nameLe l

/-! ### Resolver theorems -/

/-- Counterexample to C6 as stated: at the resolver's interface a directory
lookup failure is NOT distinguishable from an empty match set — a raising
search and a search matching nothing both return `[]`, and no
`ResolutionError` (or any error value) is ever surfaced. -/
theorem find_computers_lookup_failure_indistinguishable :
    find_computers_by_pattern envLookupFails "HOST1" = [] ∧
    find_computers_by_pattern envNoMatch "HOST1" = [] ∧
    find_computers_by_pattern envLookupFails "HOST1" =
      find_computers_by_pattern envNoMatch "HOST1" := by
  decide

/-- C6 (amended): the resolver never raises; a failing directory lookup is
caught and converted to the empty list, exactly the value returned when a
well-formed selector matches nothing (for `get_computers_in_ou` likewise),
so the two are not distinguishable at the resolver's interface. -/
theorem find_computers_error_swallowed (env : LdapEnv) (p ou msg : String) :
    (env.search env.base_dn (computer_search_filter p) = SearchResult.raises msg →
      find_computers_by_pattern env p = []) ∧
    (env.search env.base_dn (computer_search_filter p) = SearchResult.entries [] →
      env.search env.base_dn (computer_search_filter (p ++ "$")) = SearchResult.entries [] →
      find_computers_by_pattern env p = []) ∧
    (env.search ou "(objectClass=computer)" = SearchResult.raises msg →
      get_computers_in_ou env ou = []) := by
  refine ⟨?_, ?_, ?_⟩
  · intro hs
    unfold find_computers_by_pattern
    split
    · rfl
    · rw [hs]
  · intro h1 h2
    unfold find_computers_by_pattern
    split
    · rfl
    · simp only [h1]
      simp [h2, sortByName, List.insertionSort]
  · intro hs
    unfold get_computers_in_ou
    split
    · rfl
    · rw [hs]

/-- Witness for C6 (amended): the always-failing directory and the
empty directory both yield `[]`. -/
theorem find_computers_error_swallowed_witness :
    find_computers_by_pattern envLookupFails "SRV1" = [] ∧
    find_computers_by_pattern envNoMatch "SRV1" = [] ∧
    get_computers_in_ou envLookupFails "OU=Servers,DC=EX,DC=LOCAL" = [] :=
  ⟨(find_computers_error_swallowed envLookupFails "SRV1" "OU=Servers,DC=EX,DC=LOCAL"
      "LDAP search failed: network error").1 rfl,
   (find_computers_error_swallowed envNoMatch "SRV1" "OU=Servers,DC=EX,DC=LOCAL"
      "LDAP search failed: network error").2.1 rfl rfl,
   (find_computers_error_swallowed envLookupFails "SRV1" "OU=Servers,DC=EX,DC=LOCAL"
      "LDAP search failed: network error").2.2 rfl⟩

/-- Counterexample to C7 as stated: the resolver does NOT deduplicate by
name — two distinct directory entries sharing the CN `"PC1"` both survive
into the returned target list. -/
theorem find_computers_no_dedup_counterexample :
    (find_computers_by_pattern envDupNames "PC1").map Computer.name = ["PC1", "PC1"] ∧
    ¬ ((find_computers_by_pattern envDupNames "PC1").map Computer.name).Nodup := by
  decide

/-- C7 (amended): for every pattern selector against a fixed directory
state, `find_computers_by_pattern` returns its matches sorted by name
(stable sort; duplicates by name are kept, not removed), and when the
literal search matches, the returned list is a permutation of the projected
matches — so resolving the same selector against the same directory
responses yields the same sorted list. -/
theorem find_computers_sorted_perm (env : LdapEnv) (p : String) :
    List.Sorted nameLe (find_computers_by_pattern env p) ∧
    (∀ es, env.connected = true →
      env.search env.base_dn (computer_search_filter p) = SearchResult.entries es →
      es.map entryToComputer ≠ [] →
      (find_computers_by_pattern env p).Perm (es.map entryToComputer)) := by
  constructor
  · unfold find_computers_by_pattern
    split
    · exact List.sorted_nil
    · split
      · exact List.sorted_nil
      · split
        · split
          · exact sortByName_sorted _
          · split
            · exact List.sorted_nil
            · exact sortByName_sorted _
        · exact sortByName_sorted _
  · intro es hc hs hne
    have hc' : ¬ env.connected = false := by simp [hc]
    unfold find_computers_by_pattern
    rw [if_neg hc']
    simp only [hs]
    rw [if_neg (by simpa [List.isEmpty_iff] using hne)]
    exact sortByName_perm _

/-- Witness for C7 (amended): the duplicate-name directory yields exactly
its two projected matches, in sorted order. -/
theorem find_computers_sorted_perm_witness :
    (find_computers_by_pattern envDupNames "PC1").Perm
      (([LdapEntry.mk (some "PC1") (some "pc1.a.ex.local") "CN=PC1,OU=A,DC=EX,DC=LOCAL",
         LdapEntry.mk (some "PC1") (some "pc1.b.ex.local") "CN=PC1,OU=B,DC=EX,DC=LOCAL"]).map
        entryToComputer) :=
  (find_computers_sorted_perm envDupNames "PC1").2
    [LdapEntry.mk (some "PC1") (some "pc1.a.ex.local") "CN=PC1,OU=A,DC=EX,DC=LOCAL",
     LdapEntry.mk (some "PC1") (some "pc1.b.ex.local") "CN=PC1,OU=B,DC=EX,DC=LOCAL"]
    rfl (by decide) (by decide)

/-- C9: when the pattern does not already end in `'$'` and the literal
search matches nothing, the search is retried exactly once with the
machine-account suffix `'$'` appended, and the round returns the projected
matches of that retry (sorted by name). -/
theorem find_computers_dollar_fallback (env : LdapEnv) (p : String) (es : List LdapEntry)
    (hc : env.connected = true)
    (hd : endsWithDollar p = false)
    (h1 : env.search env.base_dn (computer_search_filter p) = SearchResult.entries [])
    (h2 : env.search env.base_dn (computer_search_filter (p ++ "$")) =
      SearchResult.entries es) :
    find_computers_by_pattern env p = sortByName (es.map entryToComputer) := by
  have hc' : ¬ env.connected = false := by simp [hc]
  unfold find_computers_by_pattern
  rw [if_neg hc']
  simp only [h1]
  rw [if_pos (by simp), if_neg (by simp [hd])]
  simp only [h2]
  simp

/-- Witness for C9: resolving `"HOST1"` when no record matches `"HOST1"`
but one record matches `"HOST1$"` returns that one target. -/
theorem find_computers_dollar_fallback_witness :
    find_computers_by_pattern envDollarOnly "HOST1" =
      [Computer.mk "HOST1" (some "host1.ex.local")] := by
  have h := find_computers_dollar_fallback envDollarOnly "HOST1"
    [LdapEntry.mk (some "HOST1") (some "host1.ex.local") "CN=HOST1,DC=EX,DC=LOCAL"]
    rfl (by decide) (by decide) (by decide)
  rw [h]
  decide

/-! ### Split/join/replace lemmas for the pattern rewrite -/

/-- `split` never returns an empty list of segments. -/
theorem splitChar_ne_nil (a : Char) : ∀ l, splitChar a l ≠ [] := by
  intro l
  cases l with
  | nil => simp [splitChar]
  | cons c cs =>
    cases h : splitChar a cs with
    | nil => simp [splitChar, h]
    | cons s t =>
      simp only [splitChar, h]
      split <;> simp

/-- Splitting a separator-free string gives that one segment. -/
theorem splitChar_no_sep (a : Char) : ∀ l, charIn a l = false → splitChar a l = [l] := by
  intro l
  induction l with
  | nil => intro _; rfl
  | cons c cs ih =>
    intro h
    simp only [charIn] at h
    by_cases hc : c = a
    · rw [if_pos hc] at h
      simp at h
    · rw [if_neg hc] at h
      simp [splitChar, ih h, hc]

/-- Splitting past a separator-free front segment. -/
theorem splitChar_append (a : Char) :
    ∀ s b, charIn a s = false → splitChar a (s ++ a :: b) = s :: splitChar a b := by
  intro s
  induction s with
  | nil =>
    intro b _
    cases hb : splitChar a b with
    | nil => exact absurd hb (splitChar_ne_nil a b)
    | cons h t => simp [splitChar, hb]
  | cons c cs ih =>
    intro b h
    simp only [charIn] at h
    by_cases hc : c = a
    · rw [if_pos hc] at h
      simp at h
    · rw [if_neg hc] at h
      simp [splitChar, ih b h, hc]

/-- Splitting the dash-join of separator-free segments recovers the
segments. -/
theorem splitChar_join_snoc (a : Char) :
    ∀ (base : List (List Char)) (lastSeg : List Char), base ≠ [] →
      (∀ s ∈ base, charIn a s = false) → charIn a lastSeg = false →
      splitChar a (joinChar a base ++ a :: lastSeg) = base ++ [lastSeg] := by
  intro base
  induction base with
  | nil => intro lastSeg h; exact absurd rfl h
  | cons s rest ih =>
    intro lastSeg _ hall hlast
    have hs : charIn a s = false := hall s (by simp)
    cases rest with
    | nil =>
      show splitChar a (s ++ a :: lastSeg) = [s, lastSeg]
      rw [splitChar_append a s lastSeg hs, splitChar_no_sep a lastSeg hlast]
    | cons r rs =>
      have hrest : ∀ t ∈ r :: rs, charIn a t = false := fun t ht => hall t (by simp [ht])
      show splitChar a ((s ++ a :: joinChar a (r :: rs)) ++ a :: lastSeg) =
        s :: ((r :: rs) ++ [lastSeg])
      rw [List.append_assoc, List.cons_append,
        splitChar_append a s _ hs, ih lastSeg (by simp) hrest hlast]

/-- `c in (s ++ t)` searches both parts. -/
theorem charIn_append (a : Char) :
    ∀ s t, charIn a (s ++ t) = (charIn a s || charIn a t) := by
  intro s t
  induction s with
  | nil => rfl
  | cons c cs ih => by_cases hc : c = a <;> simp [charIn, hc, ih]

/-- A string ending in `"**"` contains `"**"`. -/
theorem containsStarStar_concat : ∀ l, containsStarStar (l ++ ['*', '*']) = true := by
  intro l
  induction l with
  | nil => rfl
  | cons c cs ih =>
    cases cs with
    | nil => simp [containsStarStar]
    | cons d ds =>
      simp [containsStarStar]
      exact Or.inr ih

/-- `replace('**','')` on a star-free string followed by `"**"` removes
exactly that trailing `"**"`. -/
theorem removeStarStar_concat :
    ∀ pre, charIn '*' pre = false → removeStarStar (pre ++ ['*', '*']) = pre := by
  intro pre
  induction pre with
  | nil => intro _; rfl
  | cons c cs ih =>
    intro h
    simp only [charIn] at h
    by_cases hc : c = '*'
    · rw [if_pos hc] at h
      simp at h
    · rw [if_neg hc] at h
      cases cs with
      | nil => simp [removeStarStar, hc]
      | cons d ds =>
        simp [removeStarStar, hc]
        exact ih h

/-- C8: `convert_pattern_to_ldap` rewrites a dash-separated pattern whose
last segment is a star-free front followed by the double-wildcard token
`'**'` into the same base segments joined with `'-'` plus that front
followed by a single `'*'`; and it returns unchanged any dash-separated
pattern whose last segment does not contain `'**'` (in particular one with
only a single `'*'` token). -/
theorem convert_pattern_to_ldap_rewrite :
    (∀ (p : String) (base : List (List Char)) (pre : List Char),
      base ≠ [] →
      (∀ s ∈ base, charIn '-' s = false) →
      charIn '-' pre = false →
      charIn '*' pre = false →
      p.data = joinChar '-' base ++ '-' :: (pre ++ ['*', '*']) →
      convert_pattern_to_ldap p = ⟨joinChar '-' base ++ '-' :: (pre ++ ['*'])⟩) ∧
    (∀ (p : String) (base : List (List Char)) (lastSeg : List Char),
      base ≠ [] →
      (∀ s ∈ base, charIn '-' s = false) →
      charIn '-' lastSeg = false →
      containsStarStar lastSeg = false →
      p.data = joinChar '-' base ++ '-' :: lastSeg →
      convert_pattern_to_ldap p = p) := by
  constructor
  · intro p base pre hb hbase hpre hstar hp
    have hlastdash : charIn '-' (pre ++ ['*', '*']) = false := by
      rw [charIn_append, hpre]
      rfl
    have hsplit : splitChar '-' p.data = base ++ [pre ++ ['*', '*']] := by
      rw [hp]
      exact splitChar_join_snoc '-' base (pre ++ ['*', '*']) hb hbase hlastdash
    have hlen : (splitChar '-' p.data).length > 1 := by
      rw [hsplit, List.length_append]
      have := List.length_pos.mpr hb
      simp only [List.length_singleton]
      omega
    unfold convert_pattern_to_ldap
    rw [if_pos hlen, hsplit, List.dropLast_concat, List.getLastD_concat,
      if_pos (containsStarStar_concat pre), removeStarStar_concat pre hstar]
  · intro p base lastSeg hb hbase hlastdash hnostar hp
    have hsplit : splitChar '-' p.data = base ++ [lastSeg] := by
      rw [hp]
      exact splitChar_join_snoc '-' base lastSeg hb hbase hlastdash
    have hlen : (splitChar '-' p.data).length > 1 := by
      rw [hsplit, List.length_append]
      have := List.length_pos.mpr hb
      simp only [List.length_singleton]
      omega
    unfold convert_pattern_to_ldap
    rw [if_pos hlen, hsplit, List.dropLast_concat, List.getLastD_concat,
      if_neg (by simp [hnostar])]
    by_cases hstar1 : charIn '*' lastSeg = true
    · rw [if_pos hstar1, ← hp]
    · rw [if_neg hstar1]

/-- Witness for C8: the three documented examples —
`"DB-OP1-0**"` is rewritten to `"DB-OP1-0*"`, while `"DB-OP1-00*"` and
`"DB-OP1-*"` are passed through unchanged. -/
theorem convert_pattern_to_ldap_rewrite_witness :
    convert_pattern_to_ldap "DB-OP1-0**" = "DB-OP1-0*" ∧
    convert_pattern_to_ldap "DB-OP1-00*" = "DB-OP1-00*" ∧
    convert_pattern_to_ldap "DB-OP1-*" = "DB-OP1-*" := by
  refine ⟨?_, ?_, ?_⟩
  · have h := convert_pattern_to_ldap_rewrite.1 "DB-OP1-0**"
      ["DB".data, "OP1".data] "0".data
      (by decide) (by decide) (by decide) (by decide) (by decide)
    rw [h]
    decide
  · exact convert_pattern_to_ldap_rewrite.2 "DB-OP1-00*"
      ["DB".data, "OP1".data] "00*".data
      (by decide) (by decide) (by decide) (by decide) (by decide)
  · exact convert_pattern_to_ldap_rewrite.2 "DB-OP1-*"
      ["DB".data, "OP1".data] "*".data
      (by decide) (by decide) (by decide) (by decide) (by decide)

/-- C10: a pattern containing no `'-'` separator is returned unchanged by
`convert_pattern_to_ldap`, even when it contains the double-wildcard token
`'**'` — the rewrite applies only to patterns with at least two
dash-separated segments. -/
theorem convert_pattern_to_ldap_no_dash (p : String) (h : charIn '-' p.data = false) :
    convert_pattern_to_ldap p = p := by
  unfold convert_pattern_to_ldap
  rw [splitChar_no_sep '-' p.data h]
  rfl

/-- Witness for C10: `"AB0**"` has no dash, contains `'**'`, and is
returned unchanged. -/
theorem convert_pattern_to_ldap_no_dash_witness :
    convert_pattern_to_ldap "AB0**" = "AB0**" ∧ containsStarStar "AB0**".data = true :=
  ⟨convert_pattern_to_ldap_no_dash "AB0**" (by decide), by decide⟩
